import Mathlib

/- Verification development for docs/00-example-implementation/generate-put-ssm.py
   of 63Klabs/cache-data.

   Shallow embedding conventions:
   - Python strings are embedded as `List Char`.
   - The process environment (os.getenv) is a partial map `List Char → Option (List Char)`.
   - The outcome of the configuration-file search and JSON parse (lines 80-135 of the
     script) is an input `ConfigResult`: file absent from both directories, present but
     not valid JSON, or parsed with an optional Tags object.  A parsed Tags object is an
     association list with the insertion order of the Python dict; a Python dict cannot
     hold a duplicate key, which theorems take as a Nodup hypothesis on the keys.
   - The SSM client is embedded as a transition from the outcome of the get_parameter
     call (success, or a ClientError carrying its error code) to the list of API actions
     issued, the messages printed, and the final result (normal return or a propagated
     ClientError, identified by its code).
   - secrets.token_hex draws bytes from an abstract random source `Nat → Fin 256`. -/

namespace CacheData

/-- Environment of the process: os.getenv, some value when the variable is set. -/
abbrev Env : Type := List Char → Option (List Char)

/-- Character class [A-Z_], the first character of a placeholder name
    (regex at line 113 of the script). -/
def isNameStart (c : Char) : Bool :=
  (decide ('A' ≤ c) && decide (c ≤ 'Z')) || decide (c = '_')

/-- Character class [A-Z0-9_], the later characters of a placeholder name. -/
def isNameChar (c : Char) : Bool :=
  isNameStart c || (decide ('0' ≤ c) && decide (c ≤ '9'))

/-- Left-to-right scan for non-overlapping matches of the pattern of
    placeholders (a dollar sign, a name in [A-Z_][A-Z0-9_]*, a dollar sign),
    as re.findall does at line 113.  The state is `none` when no candidate
    match is open, and `some acc` when a dollar sign has been read and `acc`
    holds the name characters read so far, most recent first. -/
def scanPH : Option (List Char) → List Char → List (List Char)
  | _, [] => []
  | none, c :: cs =>
      if c = '$' then scanPH (some []) cs else scanPH none cs
  | some [], c :: cs =>
      if c = '$' then scanPH (some []) cs
      else if isNameStart c then scanPH (some [c]) cs
      else scanPH none cs
  | some (a :: acc), c :: cs =>
      if c = '$' then (a :: acc).reverse :: scanPH none cs
      else if isNameChar c then scanPH (some (c :: a :: acc)) cs
      else scanPH none cs

/-- All placeholder names found in a tag value, in order of occurrence,
    duplicates kept — the list the loop at lines 114-121 iterates over. -/
def findPlaceholders (s : List Char) : List (List Char) :=
  scanPH none s

/-- Does the second list start with the first one. -/
def startsWithList : List Char → List Char → Bool
  | [], _ => true
  | _ :: _, [] => false
  | p :: ps, c :: cs => decide (p = c) && startsWithList ps cs

/-- Worker for `replaceAll`.  The fuel starts at the length of the string and
    each step consumes at least one character while spending one unit of fuel,
    so the fuel-exhausted branch is unreachable; it only makes the recursion
    structural. -/
def replaceAllGo (pat rep : List Char) : Nat → List Char → List Char
  | _, [] => []
  | 0, s => s
  | fuel + 1, c :: cs =>
      match pat with
      | [] => c :: cs
      | p :: ps =>
          if startsWithList (p :: ps) (c :: cs) then
            rep ++ replaceAllGo pat rep fuel (cs.drop ps.length)
          else
            c :: replaceAllGo pat rep fuel cs

/-- Python str.replace: replace every non-overlapping occurrence of `pat`,
    scanning left to right (line 119 of the script).  The patterns used by the
    script are placeholders, which are never empty. -/
def replaceAll (pat rep s : List Char) : List Char :=
  replaceAllGo pat rep s.length s

/-- One iteration of the loop at lines 114-121: if the environment defines the
    placeholder name, replace every occurrence of the placeholder in the value
    being built; otherwise record a warning naming the missing variable and
    leave the value as it stands. -/
def substOne (env : Env) (acc : List Char × List (List Char)) (name : List Char) :
    List Char × List (List Char) :=
  match env name with
  | some ev => (replaceAll ('$' :: name ++ ['$']) ev acc.1, acc.2)
  | none => (acc.1, acc.2 ++ [name])

/-- Placeholder substitution for one tag value (lines 111-121): placeholders
    are collected once from the original value, then each is processed in order
    against the evolving string.  Returns the final value and the names of the
    missing environment variables that were warned about, in order. -/
def substValue (env : Env) (v : List Char) : List Char × List (List Char) :=
  (findPlaceholders v).foldl (substOne env) (v, [])

/-- A JSON tag value from the configuration file: a string, or anything else
    (a non-string value is appended untouched, line 111 guards only the
    substitution). -/
inductive JVal where
  | str (s : List Char)
  | other
deriving DecidableEq

/-- One tag as sent to SSM: a Key and a Value (dicts built at line 123). -/
structure Tag where
  key : List Char
  value : JVal
deriving DecidableEq

/-- The warnings get_tags prints to stderr. -/
inductive Warning where
  | missingConfig
  | badConfig
  | noTags
  | missingEnvVar (name : List Char)
deriving DecidableEq

/-- Outcome of the search for template-configuration.json and of its parse
    (lines 80-105): absent from both the current and the parent directory,
    present but not valid JSON, or parsed, with the Tags object when the key
    is present. -/
inductive ConfigResult where
  | noFile
  | badJson
  | parsed (tags : Option (List (List Char × JVal)))
deriving DecidableEq

/-- Processing of one (key, value) entry of the Tags object: substitution runs
    on string values only, and the key passes through unchanged (lines 111-123). -/
def substTagEntry (env : Env) (kv : List Char × JVal) : Tag :=
  match kv.2 with
  | .str s => ⟨kv.1, .str (substValue env s).1⟩
  | .other => ⟨kv.1, kv.2⟩

/-- Missing-variable warnings produced while processing one Tags entry. -/
def tagEntryWarnings (env : Env) (kv : List Char × JVal) : List Warning :=
  match kv.2 with
  | .str s => (substValue env s).2.map Warning.missingEnvVar
  | .other => []

/-- Lines 80-135 of get_tags: the tag list built from the configuration file,
    with the warnings emitted.  A missing file, a JSON decode error, or a
    missing Tags key each leaves the tag list empty and warns; none aborts. -/
def loadConfigTags (cfg : ConfigResult) (env : Env) : List Tag × List Warning :=
  match cfg with
  | .noFile => ([], [.missingConfig])
  | .badJson => ([], [.badConfig])
  | .parsed none => ([], [.noTags])
  | .parsed (some kvs) =>
      (kvs.map (substTagEntry env), (kvs.map (tagEntryWarnings env)).flatten)

/-- Find-or-append for a reserved tag key (lines 137-149): overwrite the value
    of the first tag whose key matches, or append a new tag when none does.
    The overwrite and append values differ for the DeployedUsing tag. -/
def setProvenance (k : List Char) (vOver vApp : JVal) : List Tag → List Tag
  | [] => [⟨k, vApp⟩]
  | t :: ts => if t.key = k then ⟨t.key, vOver⟩ :: ts else t :: setProvenance k vOver vApp ts

/-- Reserved key Provisioner. -/
def provisionerKey : List Char := "Provisioner".toList

/-- Reserved key DeployedUsing. -/
def deployedUsingKey : List Char := "DeployedUsing".toList

/-- Value CodeBuild, used both to overwrite and to append the Provisioner tag. -/
def codeBuildValue : List Char := "CodeBuild".toList

/-- Value written over an existing DeployedUsing tag (line 147). -/
def buildScriptValue : List Char := "Build Script".toList

/-- Value of an appended DeployedUsing tag (line 149): the fixed text followed
    by a space and the program name sys.argv[0]. -/
def buildScriptPre (argv0 : List Char) : List Char := "Build Script ".toList ++ argv0

/-- get_tags (lines 76-156): load tags from the configuration outcome, then
    enforce the two provenance tags by find-or-append. -/
def get_tags (cfg : ConfigResult) (env : Env) (argv0 : List Char) :
    List Tag × List Warning :=
  (setProvenance deployedUsingKey (JVal.str buildScriptValue)
      (JVal.str (buildScriptPre argv0))
    (setProvenance provisionerKey (JVal.str codeBuildValue) (JVal.str codeBuildValue)
      (loadConfigTags cfg env).1),
   (loadConfigTags cfg env).2)

/-- Number of tags in a list carrying the given key. -/
def countKey (k : List Char) (tags : List Tag) : Nat :=
  tags.countP (fun t => decide (t.key = k))

/-- Keys of the Tags object of a configuration outcome, in order. -/
def cfgKeys : ConfigResult → List (List Char)
  | .parsed (some kvs) => kvs.map Prod.fst
  | _ => []

/-- First tag in a list carrying the given key, as next(...) at lines 138 and 145. -/
def firstWithKey (k : List Char) (tags : List Tag) : Option Tag :=
  tags.find? (fun t => decide (t.key = k))

/-- Lowercase hexadecimal digit of a nibble, as Python hex encoding uses:
    code 48 is the zero digit, code 97 is the letter a. -/
def hexDigitChar (n : Nat) : Char :=
  if n < 10 then Char.ofNat (n + 48)
  else if n < 16 then Char.ofNat (n - 10 + 97)
  else '*'

/-- Value of a lowercase hexadecimal digit, none for any other character. -/
def hexDigitVal (c : Char) : Option Nat :=
  if decide ('0' ≤ c) && decide (c ≤ '9') then some (c.toNat - 48)
  else if decide ('a' ≤ c) && decide (c ≤ 'f') then some (c.toNat - 97 + 10)
  else none

/-- Is the character a lowercase hexadecimal digit. -/
def isHexChar (c : Char) : Bool :=
  (hexDigitVal c).isSome

/-- Two hexadecimal characters of one byte, high nibble first. -/
def byteToHex (b : Fin 256) : List Char :=
  [hexDigitChar (b.val / 16), hexDigitChar (b.val % 16)]

/-- Hexadecimal rendering of a byte sequence. -/
def bytesToHex : List (Fin 256) → List Char
  | [] => []
  | b :: bs => byteToHex b ++ bytesToHex bs

/-- secrets.token_hex(n): n bytes drawn from the random source, hex encoded. -/
def token_hex (n : Nat) (rand : Nat → Fin 256) : List Char :=
  bytesToHex ((List.range n).map rand)

/-- generate_key (lines 48-50): token_hex of key_len // 8 bytes; the integer
    division silently floors a bit length that is not a multiple of 8. -/
def generate_key (bits : Nat) (rand : Nat → Fin 256) : List Char :=
  token_hex (bits / 8) rand

/-- Decode a hexadecimal string back to its byte values; none when the length
    is odd or a character is not a lowercase hexadecimal digit. -/
def hexDecode : List Char → Option (List Nat)
  | [] => some []
  | [_] => none
  | c1 :: c2 :: rest =>
      match hexDigitVal c1, hexDigitVal c2 with
      | some hi, some lo => (hexDecode rest).map (fun bs => (16 * hi + lo) :: bs)
      | _, _ => none

/-- Where the stored value comes from (lines 184-196 of main): the --value
    argument, the --generate argument, or neither. -/
inductive ValueMode where
  | literal (v : List Char)
  | generated (bits : Nat)
  | noValue
deriving DecidableEq

/-- Value resolution of main, lines 184-196.  Every mode returns a value; the
    script has no failing branch here for a positive bit count. -/
def resolveValue (m : ValueMode) (rand : Nat → Fin 256) :
    Except (List Char) (List Char) :=
  match m with
  | .literal v => .ok v
  | .generated bits => .ok (generate_key bits rand)
  | .noValue => .ok ("BLANK".toList)

/-- SSM error code checked at line 60. -/
def pnfCode : List Char := "ParameterNotFound".toList

/-- API calls the tool could issue against the parameter store.  The script
    only ever calls get_parameter and put_parameter; delete and update
    constructors exist so that their absence is expressible. -/
inductive Action where
  | getParameter (name : List Char)
  | putParameter (name value : List Char) (tags : List Tag) (overwrite : Bool)
  | deleteParameter (name : List Char)
  | updateParameter (name : List Char)
deriving DecidableEq

/-- Outcome of the get_parameter existence check: success, or a ClientError
    identified by its error code. -/
inductive GetOutcome where
  | success
  | clientErr (code : List Char)
deriving DecidableEq

/-- One run of put_parameter: the API actions issued, the messages printed,
    and the result (a propagated ClientError is identified by its code). -/
structure StoreRun where
  actions : List Action
  output : List (List Char)
  result : Except (List Char) Unit

/-- Message of line 54. -/
def checkingMsg (n : List Char) : List Char :=
  "Checking for SSM Parameter: ".toList ++ n ++ " ...".toList

/-- Message of line 58. -/
def existsMsg : List Char := "Parameter already exists. Skipping.".toList

/-- Message of line 61. -/
def notExistMsg : List Char := "...parameter does not exist...".toList

/-- Message of line 63. -/
def dryrunMsg (n : List Char) : List Char :=
  "[DRYRUN] Would store parameter: ".toList ++ n

/-- Message of line 65. -/
def storingMsg (n : List Char) : List Char :=
  "Storing parameter: ".toList ++ n ++ " ...".toList

/-- put_parameter (lines 52-74) as a function of the get_parameter outcome.
    On success nothing further happens; on ParameterNotFound the create is
    issued unless dryrun, with Overwrite explicitly false; any other
    ClientError is re-raised unchanged. -/
def put_parameter (gr : GetOutcome) (name value : List Char) (tags : List Tag)
    (dryrun : Bool) : StoreRun :=
  match gr with
  | .success =>
      ⟨[.getParameter name], [checkingMsg name, existsMsg], .ok ()⟩
  | .clientErr code =>
      if code = pnfCode then
        if dryrun then
          ⟨[.getParameter name], [checkingMsg name, notExistMsg, dryrunMsg name], .ok ()⟩
        else
          ⟨[.getParameter name, .putParameter name value tags false],
           [checkingMsg name, notExistMsg, storingMsg name], .ok ()⟩
      else
        ⟨[.getParameter name], [checkingMsg name], .error code⟩

/-- Exit status of main around the store call (lines 200-206): an uncaught
    store failure is caught at top level and the process exits 1. -/
def runExitCode (r : StoreRun) : Nat :=
  match r.result with
  | .ok _ => 0
  | .error _ => 1

/-- Error message main prints at line 205 for a propagated store failure. -/
def runErrOutput (r : StoreRun) : List (List Char) :=
  match r.result with
  | .ok _ => []
  | .error e => ["Error: ".toList ++ e]

/-- Is the action a create (put) call. -/
def isCreateAct : Action → Bool
  | .putParameter _ _ _ _ => true
  | _ => false

/-- Is the action a delete call. -/
def isDeleteAct : Action → Bool
  | .deleteParameter _ => true
  | _ => false

/-- Is the action an update call. -/
def isUpdateAct : Action → Bool
  | .updateParameter _ => true
  | _ => false

/-- Is the action a create call with the overwrite flag raised. -/
def isOverwriteAct : Action → Bool
  | .putParameter _ _ _ ow => ow
  | _ => false

/-- Concrete environment PREFIX=web, STAGE_ID=prod of the specification example. -/
def envPS : Env := fun n =>
  if n = "PREFIX".toList then some ("web".toList)
  else if n = "STAGE_ID".toList then some ("prod".toList)
  else none

/-- Concrete environment with PREFIX=web only, STAGE_ID unset. -/
def envPOnly : Env := fun n =>
  if n = "PREFIX".toList then some ("web".toList) else none

/-- Concrete environment where the value of A itself spells a B placeholder. -/
def envC7 : Env := fun n =>
  if n = "A".toList then some ("$B$".toList)
  else if n = "B".toList then some ("y".toList)
  else none

/-- envC7 extended on a name that no placeholder of c7Val mentions. -/
def envC7b : Env := fun n =>
  if n = "C".toList then some ("z".toList) else envC7 n

/-- Tag value of the specification example. -/
def phTagVal : List Char := "$PREFIX$-$STAGE_ID$".toList

/-- Tag value with two placeholders, used to probe sequential substitution. -/
def c7Val : List Char := "$A$-$B$".toList

/-- Random source that always yields the zero byte, for concrete witnesses. -/
def zeroRand : Nat → Fin 256 := fun _ => 0

/-- Empty environment for concrete witnesses. -/
def emptyEnv : Env := fun _ => none

/-- The warnings of the substitution fold are the found placeholder names the
    environment does not define, in order, appended to the warnings already
    accumulated. -/
theorem substFold_snd (env : Env) (phs : List (List Char)) :
    ∀ (s : List Char) (ws : List (List Char)),
      (phs.foldl (substOne env) (s, ws)).2
        = ws ++ phs.filter (fun n => (env n).isNone) := by
  induction phs with
  | nil => intro s ws; simp
  | cons n phs ih =>
      intro s ws
      cases h : env n with
      | some ev =>
          simp only [List.foldl_cons, substOne, h, List.filter_cons]
          rw [ih]
          simp [h]
      | none =>
          simp only [List.foldl_cons, substOne, h, List.filter_cons]
          rw [ih]
          simp [h]

/-- The substitution fold only consults the environment on the names of the
    placeholder list it is given. -/
theorem substFold_congr (env1 env2 : Env) (phs : List (List Char))
    (h : ∀ n ∈ phs, env1 n = env2 n) :
    ∀ acc : List Char × List (List Char),
      phs.foldl (substOne env1) acc = phs.foldl (substOne env2) acc := by
  induction phs with
  | nil => intro acc; rfl
  | cons n phs ih =>
      intro acc
      have hn : env1 n = env2 n := h n (by simp)
      have hrest : ∀ m ∈ phs, env1 m = env2 m := fun m hm => h m (by simp [hm])
      simp only [List.foldl_cons]
      rw [show substOne env1 acc n = substOne env2 acc n from by
        simp only [substOne, hn]]
      exact ih hrest _

/-- Claim C4: placeholder substitution in a string tag value replaces every
    occurrence of each found placeholder whose name the environment defines,
    leaves a placeholder whose name is unset textually unchanged, and warns
    exactly once per found placeholder whose name is unset; in particular the
    tag value with PREFIX and STAGE_ID placeholders yields web-prod when both
    are set, and web followed by the untouched STAGE_ID placeholder, with a
    warning naming STAGE_ID, when STAGE_ID is unset. -/
theorem c4_placeholder_subst :
    substValue envPS phTagVal = ("web-prod".toList, [])
    ∧ substValue envPOnly phTagVal = ("web-$STAGE_ID$".toList, ["STAGE_ID".toList])
    ∧ ∀ (env : Env) (v : List Char),
        (substValue env v).2 = (findPlaceholders v).filter (fun n => (env n).isNone) := by
  refine ⟨rfl, rfl, ?_⟩
  intro env v
  simpa using substFold_snd env (findPlaceholders v) v []

/-- Claim C7 counterexample: with the tag value holding placeholders A and B,
    A set to text that spells a B placeholder and B set to y, the script
    produces y-y — the text introduced by substituting A was itself substituted
    when B was processed.  Under the claim, which forbids substituting
    introduced text, the result would keep the introduced B placeholder. -/
theorem c7_counterexample :
    substValue envC7 c7Val = ("y-y".toList, [])
    ∧ "y-y".toList ≠ "$B$-y".toList := by
  exact ⟨rfl, by decide⟩

/-- Claim C7 as amended: the placeholder scan is single-pass in the sense that
    the set of names substituted and warned about is computed once from the
    original value and never re-scanned — the result depends only on the
    environment restricted to the names found in the original value, so a name
    introduced by a substitution is never looked up and no substitution loop is
    possible.  (Sequential replacement can still rewrite introduced text that
    matches a later placeholder of the original scan, as the counterexample
    shows.) -/
theorem c7_single_scan :
    ∀ (v : List Char) (env1 env2 : Env),
      (∀ n ∈ findPlaceholders v, env1 n = env2 n) →
      substValue env1 v = substValue env2 v :=
  fun v env1 env2 h => substFold_congr env1 env2 (findPlaceholders v) h (v, [])

/-- Witness for c7_single_scan at a concrete value and pair of environments
    differing only on a name no placeholder of the value mentions. -/
theorem c7_single_scan_witness :
    (∀ n ∈ findPlaceholders c7Val, envC7 n = envC7b n)
    ∧ substValue envC7 c7Val = substValue envC7b c7Val :=
  ⟨by decide, c7_single_scan c7Val envC7 envC7b (by decide)⟩

/-- Decoding inverts encoding on each nibble. -/
theorem hexDigitVal_hexDigitChar : ∀ m : Nat, m < 16 → hexDigitVal (hexDigitChar m) = some m := by
  decide

/-- Every encoded nibble is a hexadecimal character. -/
theorem isHexChar_hexDigitChar : ∀ m : Nat, m < 16 → isHexChar (hexDigitChar m) = true := by
  decide

/-- The hexadecimal rendering of a byte sequence has two characters per byte. -/
theorem bytesToHex_length (bs : List (Fin 256)) :
    (bytesToHex bs).length = 2 * bs.length := by
  induction bs with
  | nil => rfl
  | cons b bs ih =>
      simp only [bytesToHex, byteToHex, List.length_append, List.length_cons,
        List.length_nil, ih]
      omega

/-- Every character of the hexadecimal rendering is a hexadecimal digit. -/
theorem bytesToHex_hexChars (bs : List (Fin 256)) :
    ∀ c ∈ bytesToHex bs, isHexChar c = true := by
  induction bs with
  | nil => intro c hc; simp [bytesToHex] at hc
  | cons b bs ih =>
      intro c hc
      have hb := b.isLt
      simp only [bytesToHex, byteToHex, List.mem_append, List.mem_cons,
        List.not_mem_nil, or_false] at hc
      rcases hc with (h1 | h2) | h3
      · exact h1 ▸ isHexChar_hexDigitChar _ (by omega)
      · exact h2 ▸ isHexChar_hexDigitChar _ (by omega)
      · exact ih c h3

/-- Decoding one encoded byte prepends its value. -/
theorem hexDecode_byteToHex (b : Fin 256) (rest : List Char) :
    hexDecode (byteToHex b ++ rest) = (hexDecode rest).map (fun l => b.val :: l) := by
  have hb := b.isLt
  have h1 : hexDigitVal (hexDigitChar (b.val / 16)) = some (b.val / 16) :=
    hexDigitVal_hexDigitChar _ (by omega)
  have h2 : hexDigitVal (hexDigitChar (b.val % 16)) = some (b.val % 16) :=
    hexDigitVal_hexDigitChar _ (by omega)
  have h3 : 16 * (b.val / 16) + b.val % 16 = b.val := by omega
  simp [byteToHex, hexDecode, h1, h2, h3]

/-- Decoding inverts the hexadecimal rendering of a byte sequence. -/
theorem hexDecode_bytesToHex (bs : List (Fin 256)) :
    hexDecode (bytesToHex bs) = some (bs.map Fin.val) := by
  induction bs with
  | nil => rfl
  | cons b bs ih =>
      simp [bytesToHex, hexDecode_byteToHex, ih]

/-- Claim C2 counterexample: at bit length 12, which is not a multiple of 8,
    resolving the Generated mode does not fail — no InvalidBitsError exists in
    the script — and returns a two-character key, the requested entropy
    silently floored from 12 to 8 bits. -/
theorem c2_counterexample :
    (12 : Nat) % 8 ≠ 0
    ∧ resolveValue (ValueMode.generated 12) zeroRand = Except.ok ("00".toList)
    ∧ ("00".toList).length = 2 := by
  exact ⟨by decide, rfl, rfl⟩

/-- Claim C2 as amended: resolving Generated(bits) never fails for any bit
    length; generate_key silently floors, producing 2 * (bits / 8)
    hexadecimal characters, and when bits is not a multiple of 8 the supplied
    entropy 8 * (bits / 8) is strictly less than the requested bits. -/
theorem c2_silent_floor :
    ∀ (bits : Nat) (rand : Nat → Fin 256),
      resolveValue (ValueMode.generated bits) rand = Except.ok (generate_key bits rand)
      ∧ (generate_key bits rand).length = 2 * (bits / 8)
      ∧ (bits % 8 ≠ 0 → 8 * (bits / 8) < bits) := by
  intro bits rand
  refine ⟨rfl, ?_, fun h => by omega⟩
  simp [generate_key, token_hex, bytesToHex_length]

/-- Witness for c2_silent_floor at bit length 12. -/
theorem c2_silent_floor_witness :
    (12 : Nat) % 8 ≠ 0 ∧ 8 * ((12 : Nat) / 8) < 12 :=
  ⟨by decide, (c2_silent_floor 12 zeroRand).2.2 (by decide)⟩

/-- Claim C3: for every bit length b that is a positive multiple of 8, the
    generated value is a hexadecimal string of exactly b / 4 characters that
    decodes to exactly the b / 8 bytes drawn from the random source. -/
theorem c3_generated_hex :
    ∀ (b : Nat) (rand : Nat → Fin 256), b % 8 = 0 → 0 < b →
      (generate_key b rand).length = b / 4
      ∧ (∀ c ∈ generate_key b rand, isHexChar c = true)
      ∧ hexDecode (generate_key b rand)
          = some (((List.range (b / 8)).map rand).map Fin.val) := by
  intro b rand h8 hpos
  refine ⟨?_, ?_, ?_⟩
  · have h := bytesToHex_length ((List.range (b / 8)).map rand)
    simp only [List.length_map, List.length_range] at h
    simp only [generate_key, token_hex, h]
    omega
  · intro c hc
    exact bytesToHex_hexChars _ c hc
  · exact hexDecode_bytesToHex _

/-- Witness for c3_generated_hex at bit length 16 and the zero random source. -/
theorem c3_generated_hex_witness :
    (16 : Nat) % 8 = 0 ∧ (0 : Nat) < 16
    ∧ ((generate_key 16 zeroRand).length = 16 / 4
       ∧ (∀ c ∈ generate_key 16 zeroRand, isHexChar c = true)
       ∧ hexDecode (generate_key 16 zeroRand)
           = some (((List.range (16 / 8)).map zeroRand).map Fin.val)) :=
  ⟨by decide, by decide, c3_generated_hex 16 zeroRand (by decide) (by decide)⟩

/-- Substitution leaves the key of a Tags entry unchanged. -/
theorem substTagEntry_key (env : Env) (kv : List Char × JVal) :
    (substTagEntry env kv).key = kv.1 := by
  cases kv with
  | mk k v => cases v <;> rfl

/-- Find-or-append with key k leaves kept tags with the other keys alone. -/
theorem countKey_setProvenance_other (k k2 : List Char) (vOver vApp : JVal)
    (tags : List Tag) (h : k2 ≠ k) :
    countKey k2 (setProvenance k vOver vApp tags) = countKey k2 tags := by
  have h2 : k ≠ k2 := Ne.symm h
  induction tags with
  | nil => simp [setProvenance, countKey, h2]
  | cons t ts ih =>
      by_cases hk : t.key = k
      · simp [setProvenance, hk, countKey, List.countP_cons, h2]
      · simp only [setProvenance, hk, if_false, countKey, List.countP_cons]
        simp only [countKey] at ih
        omega

/-- Find-or-append with key k yields exactly one tag with key k whenever the
    input held at most one. -/
theorem countKey_setProvenance_self (k : List Char) (vOver vApp : JVal)
    (tags : List Tag) (h : countKey k tags ≤ 1) :
    countKey k (setProvenance k vOver vApp tags) = 1 := by
  induction tags with
  | nil => simp [setProvenance, countKey]
  | cons t ts ih =>
      by_cases hk : t.key = k
      · have h1 : countKey k (t :: ts) = countKey k ts + 1 := by
          simp [countKey, List.countP_cons, hk]
        have h0 : countKey k ts = 0 := by omega
        have h2 : countKey k (setProvenance k vOver vApp (t :: ts))
            = countKey k ts + 1 := by
          simp [setProvenance, hk, countKey, List.countP_cons]
        omega
      · have h1 : countKey k (t :: ts) = countKey k ts := by
          simp [countKey, List.countP_cons, hk]
        have h2 : countKey k (setProvenance k vOver vApp (t :: ts))
            = countKey k (setProvenance k vOver vApp ts) := by
          simp [setProvenance, hk, countKey, List.countP_cons]
        rw [h2, ih (by omega)]

/-- The number of tags with a given key loaded from the configuration equals
    the number of Tags entries with that key. -/
theorem countKey_loadConfigTags (cfg : ConfigResult) (env : Env) (k : List Char) :
    countKey k (loadConfigTags cfg env).1
      = (cfgKeys cfg).countP (fun x => decide (x = k)) := by
  cases cfg with
  | noFile => rfl
  | badJson => rfl
  | parsed o =>
      cases o with
      | none => rfl
      | some kvs =>
          induction kvs with
          | nil => rfl
          | cons kv kvs ih =>
              simp only [loadConfigTags, cfgKeys, List.map_cons, countKey,
                List.countP_cons, substTagEntry_key] at ih ⊢
              omega

/-- A list without duplicates holds at most one element equal to any value. -/
theorem countP_eq_le_one_of_nodup (l : List (List Char)) (k : List Char)
    (h : l.Nodup) : l.countP (fun x => decide (x = k)) ≤ 1 := by
  induction l with
  | nil => simp
  | cons a l ih =>
      rcases List.nodup_cons.mp h with ⟨hna, hnd⟩
      rw [List.countP_cons]
      by_cases hak : a = k
      · have h0 : l.countP (fun x => decide (x = k)) = 0 := by
          rw [List.countP_eq_zero]
          intro x hx hxk
          rw [decide_eq_true_eq] at hxk
          exact hna (by rwa [hak, ← hxk])
        simp [h0, hak]
      · simpa [hak] using ih hnd

/-- Claim C5: for every configuration input — any Tags object a JSON parse can
    produce, including ones that already define the reserved keys, and the
    missing or malformed cases — the final tag list holds a Provisioner tag
    exactly once and a DeployedUsing tag exactly once.  The Nodup hypothesis
    states that the Tags object has no duplicate key, which every Python dict
    satisfies. -/
theorem c5_provenance_exactly_once :
    ∀ (cfg : ConfigResult) (env : Env) (argv0 : List Char),
      (cfgKeys cfg).Nodup →
      countKey provisionerKey (get_tags cfg env argv0).1 = 1
      ∧ countKey deployedUsingKey (get_tags cfg env argv0).1 = 1 := by
  intro cfg env argv0 hnd
  have hne : provisionerKey ≠ deployedUsingKey := by decide
  have hne2 : deployedUsingKey ≠ provisionerKey := by decide
  have hload : ∀ k2, countKey k2 (loadConfigTags cfg env).1 ≤ 1 := by
    intro k2
    rw [countKey_loadConfigTags]
    exact countP_eq_le_one_of_nodup _ _ hnd
  constructor
  · rw [get_tags]
    rw [countKey_setProvenance_other _ _ _ _ _ hne]
    exact countKey_setProvenance_self _ _ _ _ (hload _)
  · rw [get_tags]
    apply countKey_setProvenance_self
    rw [countKey_setProvenance_other _ _ _ _ _ hne2]
    exact hload _

/-- Witness for c5_provenance_exactly_once on a configuration that already
    defines a Provisioner tag. -/
theorem c5_provenance_exactly_once_witness :
    (cfgKeys (ConfigResult.parsed (some
        [(provisionerKey, JVal.str ("x".toList)), ("Env".toList, JVal.other)]))).Nodup
    ∧ (countKey provisionerKey
        (get_tags (ConfigResult.parsed (some
          [(provisionerKey, JVal.str ("x".toList)), ("Env".toList, JVal.other)]))
          emptyEnv ("s".toList)).1 = 1
      ∧ countKey deployedUsingKey
          (get_tags (ConfigResult.parsed (some
            [(provisionerKey, JVal.str ("x".toList)), ("Env".toList, JVal.other)]))
            emptyEnv ("s".toList)).1 = 1) :=
  ⟨by decide,
   c5_provenance_exactly_once
     (ConfigResult.parsed (some
       [(provisionerKey, JVal.str ("x".toList)), ("Env".toList, JVal.other)]))
     emptyEnv ("s".toList) (by decide)⟩

/-- Claim C6: when the configuration file is missing from both directories, or
    present but not valid JSON, get_tags returns normally with the
    corresponding warning and the tag list is exactly the two provenance tags. -/
theorem c6_missing_config_fallback :
    ∀ (env : Env) (argv0 : List Char),
      get_tags ConfigResult.noFile env argv0
        = ([⟨provisionerKey, JVal.str codeBuildValue⟩,
            ⟨deployedUsingKey, JVal.str (buildScriptPre argv0)⟩],
           [Warning.missingConfig])
      ∧ get_tags ConfigResult.badJson env argv0
        = ([⟨provisionerKey, JVal.str codeBuildValue⟩,
            ⟨deployedUsingKey, JVal.str (buildScriptPre argv0)⟩],
           [Warning.badConfig]) := by
  intro env argv0
  have hne : provisionerKey ≠ deployedUsingKey := by decide
  constructor <;> simp [get_tags, loadConfigTags, setProvenance, hne]

/-- When no tag carries the key, find-or-append appends the append value. -/
theorem setProvenance_of_none (k : List Char) (vOver vApp : JVal) (tags : List Tag)
    (h : firstWithKey k tags = none) :
    setProvenance k vOver vApp tags = tags ++ [⟨k, vApp⟩] := by
  induction tags with
  | nil => rfl
  | cons t ts ih =>
      by_cases hk : t.key = k
      · exfalso
        simp [firstWithKey, List.find?_cons_of_pos, hk] at h
      · rw [firstWithKey, List.find?_cons_of_neg _ (by simp [hk])] at h
        simp only [setProvenance, hk, if_false, List.cons_append]
        rw [ih h]

/-- When some tag carries the key, find-or-append overwrites the value of the
    first such tag, which keeps its key. -/
theorem setProvenance_of_some (k : List Char) (vOver vApp : JVal) (tags : List Tag)
    (t : Tag) (h : firstWithKey k tags = some t) :
    firstWithKey k (setProvenance k vOver vApp tags) = some ⟨t.key, vOver⟩ := by
  induction tags with
  | nil => simp [firstWithKey] at h
  | cons u ts ih =>
      by_cases hk : u.key = k
      · have hut : u = t := by
          rw [firstWithKey, List.find?_cons_of_pos _ (by simp [hk])] at h
          exact Option.some.inj h
        subst hut
        rw [setProvenance, if_pos hk, firstWithKey,
          List.find?_cons_of_pos _ (by simp [hk])]
      · rw [firstWithKey, List.find?_cons_of_neg _ (by simp [hk])] at h
        rw [setProvenance, if_neg hk, firstWithKey,
          List.find?_cons_of_neg _ (by simp [hk])]
        exact ih h

/-- Claim C10: the DeployedUsing value depends on whether the loaded tags
    already define that key — a found tag is overwritten to exactly
    Build Script, an absent one is appended with value Build Script, a space
    and the program name — and the two values are never equal. -/
theorem c10_deployedusing_value :
    ∀ (tags : List Tag) (argv0 : List Char),
      (firstWithKey deployedUsingKey tags = none →
        setProvenance deployedUsingKey (JVal.str buildScriptValue)
            (JVal.str (buildScriptPre argv0)) tags
          = tags ++ [⟨deployedUsingKey, JVal.str (buildScriptPre argv0)⟩])
      ∧ (∀ t : Tag, firstWithKey deployedUsingKey tags = some t →
          firstWithKey deployedUsingKey
              (setProvenance deployedUsingKey (JVal.str buildScriptValue)
                (JVal.str (buildScriptPre argv0)) tags)
            = some ⟨t.key, JVal.str buildScriptValue⟩)
      ∧ buildScriptPre argv0 ≠ buildScriptValue := by
  intro tags argv0
  refine ⟨setProvenance_of_none _ _ _ tags,
          fun t => setProvenance_of_some _ _ _ tags t, ?_⟩
  intro h
  have hlen := congrArg List.length h
  rw [buildScriptPre, List.length_append] at hlen
  have h1 : ("Build Script ".toList).length = 13 := rfl
  have h2 : buildScriptValue.length = 12 := rfl
  omega

/-- Witness for c10_deployedusing_value: the append path on an empty tag list
    and the overwrite path on a list already holding a DeployedUsing tag. -/
theorem c10_deployedusing_value_witness :
    (setProvenance deployedUsingKey (JVal.str buildScriptValue)
        (JVal.str (buildScriptPre ("x".toList))) []
      = [] ++ [⟨deployedUsingKey, JVal.str (buildScriptPre ("x".toList))⟩])
    ∧ firstWithKey deployedUsingKey
        (setProvenance deployedUsingKey (JVal.str buildScriptValue)
          (JVal.str (buildScriptPre ("x".toList))) [⟨deployedUsingKey, JVal.other⟩])
      = some ⟨deployedUsingKey, JVal.str buildScriptValue⟩ :=
  ⟨(c10_deployedusing_value [] ("x".toList)).1 rfl,
   (c10_deployedusing_value [⟨deployedUsingKey, JVal.other⟩] ("x".toList)).2.1
     ⟨deployedUsingKey, JVal.other⟩ rfl⟩

/-- Claim C1: when the existence check reports the parameter already exists,
    the only action issued is the get itself, whatever the dry-run flag; no
    run ever issues a delete, an update, or a create with the overwrite flag
    raised; and a create action is issued only when the check reported
    ParameterNotFound with dry-run off. -/
theorem c1_exists_no_create :
    ∀ (gr : GetOutcome) (n v : List Char) (t : List Tag) (d : Bool),
      (gr = GetOutcome.success →
        (put_parameter gr n v t d).actions = [Action.getParameter n])
      ∧ (∀ a ∈ (put_parameter gr n v t d).actions,
          isDeleteAct a = false ∧ isUpdateAct a = false ∧ isOverwriteAct a = false)
      ∧ (∀ a ∈ (put_parameter gr n v t d).actions,
          isCreateAct a = true → gr = GetOutcome.clientErr pnfCode ∧ d = false) := by
  intro gr n v t d
  refine ⟨?_, ?_, ?_⟩
  · intro hgr
    subst hgr
    rfl
  · intro a ha
    cases gr with
    | success =>
        simp [put_parameter] at ha
        subst ha
        exact ⟨rfl, rfl, rfl⟩
    | clientErr code =>
        by_cases hcode : code = pnfCode
        · subst hcode
          cases d with
          | true =>
              simp [put_parameter] at ha
              subst ha
              exact ⟨rfl, rfl, rfl⟩
          | false =>
              simp [put_parameter] at ha
              rcases ha with ha | ha <;> subst ha
              · exact ⟨rfl, rfl, rfl⟩
              · exact ⟨rfl, rfl, rfl⟩
        · simp [put_parameter, hcode] at ha
          subst ha
          exact ⟨rfl, rfl, rfl⟩
  · intro a ha hc
    cases gr with
    | success =>
        simp [put_parameter] at ha
        subst ha
        simp [isCreateAct] at hc
    | clientErr code =>
        by_cases hcode : code = pnfCode
        · subst hcode
          cases d with
          | true =>
              simp [put_parameter] at ha
              subst ha
              simp [isCreateAct] at hc
          | false => exact ⟨rfl, rfl⟩
        · simp [put_parameter, hcode] at ha
          subst ha
          simp [isCreateAct] at hc

/-- Witness for c1_exists_no_create: the existing-parameter run issues only the
    get, and the one create the script can issue occurs under ParameterNotFound
    with dry-run off. -/
theorem c1_exists_no_create_witness :
    (put_parameter GetOutcome.success ("/k".toList) ("v".toList) [] true).actions
      = [Action.getParameter ("/k".toList)]
    ∧ (GetOutcome.clientErr pnfCode = GetOutcome.clientErr pnfCode ∧ false = false) :=
  ⟨(c1_exists_no_create GetOutcome.success ("/k".toList) ("v".toList) [] true).1 rfl,
   (c1_exists_no_create (GetOutcome.clientErr pnfCode) ("/k".toList) ("v".toList)
       [] false).2.2
     (Action.putParameter ("/k".toList) ("v".toList) [] false) (by decide) rfl⟩

/-- Claim C8: when the existence check fails with any code other than
    ParameterNotFound, the ClientError is re-raised unchanged, no create is
    attempted, and main exits with status 1 after printing the error. -/
theorem c8_error_propagation :
    ∀ (code n v : List Char) (t : List Tag) (d : Bool), code ≠ pnfCode →
      put_parameter (GetOutcome.clientErr code) n v t d
        = ⟨[Action.getParameter n], [checkingMsg n], Except.error code⟩
      ∧ runExitCode (put_parameter (GetOutcome.clientErr code) n v t d) = 1
      ∧ runErrOutput (put_parameter (GetOutcome.clientErr code) n v t d)
        = ["Error: ".toList ++ code] := by
  intro code n v t d h
  have h1 : put_parameter (GetOutcome.clientErr code) n v t d
      = ⟨[Action.getParameter n], [checkingMsg n], Except.error code⟩ := by
    simp [put_parameter, h]
  exact ⟨h1, by rw [h1]; rfl, by rw [h1]; rfl⟩

/-- Witness for c8_error_propagation at the AccessDenied error code. -/
theorem c8_error_propagation_witness :
    ("AccessDenied".toList ≠ pnfCode)
    ∧ runExitCode (put_parameter (GetOutcome.clientErr ("AccessDenied".toList))
        ("/k".toList) ("v".toList) [] false) = 1 :=
  ⟨by decide,
   (c8_error_propagation ("AccessDenied".toList) ("/k".toList) ("v".toList) [] false
     (by decide)).2.1⟩

/-- Claim C9: when the check reports ParameterNotFound and dry-run is set, the
    run issues no create call — the get is the only action — and prints the
    dry-run message naming the parameter that would have been stored. -/
theorem c9_dryrun_no_create :
    ∀ (n v : List Char) (t : List Tag),
      put_parameter (GetOutcome.clientErr pnfCode) n v t true
        = ⟨[Action.getParameter n],
           [checkingMsg n, notExistMsg, dryrunMsg n], Except.ok ()⟩ := by
  intro n v t
  simp [put_parameter]

end CacheData
